import Mathlib

/-!
Verification of the truckload-splitter webhook service.

The repository consists of several near-duplicate Express handlers for the
`orders/create` webhook.  The primary handler is the first document of
`src/server.js` (lines 1-203); it is embedded here as `handleOrder` together
with its helpers.  A second handler variant (the one built on
`getProductMetafields` / `createSplitOrder` / `tagOriginalOrder`, found in
`src/unnamed/part_000` lines 169-259 and in `src/unnamed/part_001`) is
embedded as `handleOrderV2`; it differs in failure policy (a failed
metafields fetch or child-order creation throws out of the loop and the
outer catch returns a 500).

Strings that require character-level reasoning (the order's raw tag string,
metafield values) are modelled as `List Char`; other strings stay `String`.
External I/O is modelled by an oracle giving the outcome of each outbound
call, and each handler returns the HTTP response together with the ordered
log of outbound calls it attempted.
-/

/-- The sentinel tag `"Split-Processed"` as a character list. -/
def sentinel : List Char := "Split-Processed".toList

/-- JS `String.prototype.includes(pat)`: substring containment test,
mirroring `(order.tags || "").includes("Split-Processed")`. -/
def isSubstring (pat : List Char) : List Char → Bool
  | [] => pat.isEmpty
  | c :: rest => pat.isPrefixOf (c :: rest) || isSubstring pat rest

/-- Number of positions of `s` at which `pat` occurs (occurrences may
overlap); used to state "contains exactly one instance of the sentinel". -/
def countOccs (s pat : List Char) : Nat :=
  match s with
  | [] => 0
  | _ :: rest => (if pat.isPrefixOf s then 1 else 0) + countOccs rest pat

/-- JS whitespace for `String.prototype.trim`. -/
def isJsWhitespace (c : Char) : Bool :=
  c = ' ' || c = '\t' || c = '\n' || c = '\r' || c = '\x0b' || c = '\x0c'

/-- JS `String.prototype.trim()`: strip whitespace from both ends. -/
def jsTrim (s : List Char) : List Char :=
  (((s.dropWhile isJsWhitespace).reverse.dropWhile isJsWhitespace).reverse)

/-- Value of a digit run, most significant first. -/
def digitsToNat (ds : List Char) : Nat :=
  ds.foldl (fun acc c => acc * 10 + (c.toNat - 48)) 0

/-- JS `parseInt(s, 10)`: skip leading whitespace, optional sign, then a
maximal run of decimal digits; no digits means `NaN`, modelled as `none`.
Trailing junk is ignored.  (The JS result is a float; we idealise it as an
exact integer, which agrees for all realistic metafield values.) -/
def jsParseInt (s : List Char) : Option Int :=
  let s1 := s.dropWhile isJsWhitespace
  let signAndRest : Int × List Char :=
    match s1 with
    | '-' :: rest => (-1, rest)
    | '+' :: rest => (1, rest)
    | _ => (1, s1)
  let ds := signAndRest.2.takeWhile Char.isDigit
  if ds.isEmpty then none else some (signAndRest.1 * (digitsToNat ds : Int))

/-- One Shopify product metafield record (`src/server.js` lines 72-77). -/
structure Metafield where
  mfNamespace : String
  key : String
  value : String
deriving DecidableEq, Repr

/-- Predicate from `metafields.find(...)` in `src/server.js` lines 73-77:
key `truckload_capacity` in namespace `custom` or `logistics`. -/
def isCapacityMf (m : Metafield) : Bool :=
  m.key = "truckload_capacity" && (m.mfNamespace = "custom" || m.mfNamespace = "logistics")

/-- `metafields.find(...)`: first matching record in collection order. -/
def findTruckloadMeta (mfs : List Metafield) : Option Metafield :=
  mfs.find? isCapacityMf

/-- One inbound line item.  Identifiers are optional because the handler
checks `!item?.product_id || !item?.variant_id`; JS truthiness also treats
the id `0` as absent (see `truthyId`). -/
structure LineItem where
  product_id : Option Nat
  variant_id : Option Nat
  quantity : Nat
deriving DecidableEq, Repr

/-- JS truthiness of an optional numeric id: absent or `0` is falsy. -/
def truthyId : Option Nat → Bool
  | none => false
  | some n => n != 0

/-- The inbound order payload, restricted to the fields the handler reads.
`tags` is the raw comma-joined tag string (`order.tags || ""` with absence
modelled as `[]`); `line_items` is `none` when the field is not an array. -/
structure Order where
  id : Nat
  tags : List Char
  line_items : Option (List LineItem)
deriving DecidableEq, Repr

/-- The partitioner of `src/server.js` lines 93-96:
`fullLoads = Math.floor(q / c)`, `remainder = q % c`,
`Array(fullLoads).fill(c)` then push `remainder` if positive. -/
def splitQuantities (quantity capacity : Nat) : List Nat :=
  let fullLoads := quantity / capacity
  let remainder := quantity % capacity
  List.replicate fullLoads capacity ++ (if remainder > 0 then [remainder] else [])

/-- The separator `", "` used when appending the sentinel tag. -/
def sepChars : List Char := [',', ' ']

/-- `newTags` of `src/server.js` lines 163-164:
`existingTags = (order.tags || "").trim()` and
`existingTags ? existingTags + ", Split-Processed" : "Split-Processed"`. -/
def newTags (tags : List Char) : List Char :=
  let existingTags := jsTrim tags
  if existingTags.isEmpty then sentinel else existingTags ++ sepChars ++ sentinel

/-- One outbound HTTP request attempted by a handler. -/
inductive Call where
  | getMetafields (productId : Nat)
  | createOrder (variantId : Nat) (quantity : Nat) (truckloadIndex : Nat)
  | updateOrderTags (orderId : Nat) (tags : List Char)
deriving DecidableEq, Repr

/-- `true` exactly on the mutation of an existing order (the tag PUT). -/
def isUpdateCall : Call → Bool
  | Call.updateOrderTags _ _ => true
  | _ => false

/-- `true` exactly on child-order creation calls. -/
def isCreateCall : Call → Bool
  | Call.createOrder _ _ _ => true
  | _ => false

/-- The HTTP response returned to the webhook sender. -/
structure Response where
  status : Nat
  body : String
deriving DecidableEq, Repr

/-- Outcome of the metafields fetch in the primary handler: the fetch can
reject (`fetchThrown`), the body can fail to parse (`jsonThrown`), or it
parses to data whose `metafields` field is an array (`parsed (some mfs)`)
or absent/not an array (`parsed none`).  The primary handler never checks
`metaResp.ok`, so a non-2xx status only matters through the parsed body. -/
inductive MetaOutcome where
  | fetchThrown
  | jsonThrown
  | parsed (mfs : Option (List Metafield))

/-- Outcome of one child-order creation call in the primary handler. -/
inductive CreateOutcome where
  | thrown
  | notOk
  | ok

/-- Outcome of the final tag update in the primary handler: `thrown` covers
a rejected fetch or a JSON-parse failure inside the same try block. -/
inductive TagOutcome where
  | thrown
  | notOk
  | ok
deriving DecidableEq

/-- The external world for the primary handler: metafield outcome per
product id, creation outcome per global creation-attempt index, and the
tag-update outcome. -/
structure Oracle where
  meta : Nat → MetaOutcome
  create : Nat → CreateOutcome
  tag : TagOutcome

/-- The creation loop of `src/server.js` lines 100-159.  `i` is the 0-based
loop index (the truckload index is `i + 1`), `cnt` the global count of
creation attempts made so far (feeding the oracle).  Every outcome —
success, non-ok response, thrown error — continues with the next entry. -/
def runCreates (o : Oracle) (variantId : Nat) : List Nat → Nat → Nat → List Call × Nat
  | [], _, cnt => ([], cnt)
  | q :: rest, i, cnt =>
    let call := Call.createOrder variantId q (i + 1)
    let tail := runCreates o variantId rest (i + 1) (cnt + 1)
    match o.create cnt with
    | CreateOutcome.ok => (call :: tail.1, tail.2)
    | CreateOutcome.notOk => (call :: tail.1, tail.2)
    | CreateOutcome.thrown => (call :: tail.1, tail.2)

/-- Processing of one line item, `src/server.js` lines 41-159.  Returns the
calls attempted for this item and the updated creation-attempt count.
Every early `continue` yields no creation calls for the item. -/
def processItem (o : Oracle) (item : LineItem) (cnt : Nat) : List Call × Nat :=
  if !(truthyId item.product_id) || !(truthyId item.variant_id) then ([], cnt)
  else
    let pid := item.product_id.getD 0
    let call := Call.getMetafields pid
    match o.meta pid with
    | MetaOutcome.fetchThrown => ([call], cnt)
    | MetaOutcome.jsonThrown => ([call], cnt)
    | MetaOutcome.parsed mdata =>
      let metafields := mdata.getD []
      let capOpt := jsParseInt (((findTruckloadMeta metafields).map (·.value)).getD "0").toList
      match capOpt with
      | none => ([call], cnt)
      | some c =>
        if c ≤ 0 then ([call], cnt)
        else if (item.quantity : Int) ≤ c then ([call], cnt)
        else
          let qs := splitQuantities item.quantity c.toNat
          let created := runCreates o (item.variant_id.getD 0) qs 0 cnt
          (call :: created.1, created.2)

/-- The `for (const item of lineItems)` loop, threading the global
creation-attempt count. -/
def processItems (o : Oracle) : List LineItem → Nat → List Call × Nat
  | [], cnt => ([], cnt)
  | item :: rest, cnt =>
    let first := processItem o item cnt
    let tail := processItems o rest first.2
    (first.1 ++ tail.1, tail.2)

/-- The primary webhook handler, `src/server.js` lines 25-198.  Returns the
HTTP response and the ordered log of outbound calls attempted. -/
def handleOrder (o : Oracle) (ord : Order) : Response × List Call :=
  if isSubstring sentinel ord.tags then (⟨200, "Already processed"⟩, [])
  else
    let lineItems := ord.line_items.getD []
    if lineItems.length = 0 then (⟨200, "No line items"⟩, [])
    else
      let processed := processItems o lineItems 0
      let tagCall := Call.updateOrderTags ord.id (newTags ord.tags)
      -- lines 162-193: the tag update sits in its own try/catch and its
      -- outcome never changes the response
      match o.tag with
      | TagOutcome.thrown => (⟨200, "Split processed"⟩, processed.1 ++ [tagCall])
      | TagOutcome.notOk => (⟨200, "Split processed"⟩, processed.1 ++ [tagCall])
      | TagOutcome.ok => (⟨200, "Split processed"⟩, processed.1 ++ [tagCall])

/-- Outcome of `getProductMetafields` in the variant handler
(`src/unnamed/part_000` lines 169-175): any transport error or non-ok
response throws (`failure`); otherwise the parsed body's `metafields`
field, defaulted to `[]` by `data.metafields || []`. -/
inductive MetaOutcomeV2 where
  | failure
  | success (mfs : Option (List Metafield))

/-- The external world for the variant handler: metafields outcome per
product id, creation success per global attempt index (`false` throws),
tag-update success (`false` throws). -/
structure OracleV2 where
  meta : Nat → MetaOutcomeV2
  create : Nat → Bool
  tag : Bool

/-- The quantity sequence produced by the variant's creation loop
(`src/unnamed/part_000` lines 245-248): `loads = Math.ceil(q / c)` and for
1-based `i`, `qty = (i < loads) ? c : (remainder || c)` with
`remainder = q % c`. -/
def splitQuantitiesV2 (q c : Nat) : List Nat :=
  let loads := (q + c - 1) / c
  (List.range loads).map
    (fun j => if j + 1 < loads then c else (if q % c = 0 then c else q % c))

/-- Result of a sequence of steps in the variant handler: either an
exception escaped to the outer catch (carrying the calls attempted so
far), or the steps finished with the calls and updated attempt count. -/
inductive RunV2 where
  | threw (calls : List Call)
  | finished (calls : List Call) (cnt : Nat)
deriving DecidableEq, Repr

/-- The variant's creation loop: `await createSplitOrder(...)` throws on a
failed call, aborting the loop and the whole request. -/
def runCreatesV2 (o : OracleV2) (variantId : Nat) : List Nat → Nat → Nat → RunV2
  | [], _, cnt => RunV2.finished [] cnt
  | q :: rest, i, cnt =>
    let call := Call.createOrder variantId q (i + 1)
    if o.create cnt then
      match runCreatesV2 o variantId rest (i + 1) (cnt + 1) with
      | RunV2.threw calls => RunV2.threw (call :: calls)
      | RunV2.finished calls cnt' => RunV2.finished (call :: calls) cnt'
    else RunV2.threw [call]

/-- One line item in the variant handler (`src/unnamed/part_000` lines
231-251): a failed metafields fetch throws; a missing/unparsable/
non-positive capacity skips the item; otherwise every quantity is created
(note: this variant has no `q <= c` short-circuit — `loads = 1` still
creates one child order). -/
def processItemV2 (o : OracleV2) (item : LineItem) (cnt : Nat) : RunV2 :=
  if !(truthyId item.product_id) || !(truthyId item.variant_id) then RunV2.finished [] cnt
  else
    let pid := item.product_id.getD 0
    let call := Call.getMetafields pid
    match o.meta pid with
    | MetaOutcomeV2.failure => RunV2.threw [call]
    | MetaOutcomeV2.success mdata =>
      let metafields := mdata.getD []
      match findTruckloadMeta metafields with
      | none => RunV2.finished [call] cnt
      | some mf =>
        match jsParseInt mf.value.toList with
        | none => RunV2.finished [call] cnt
        | some c =>
          if c ≤ 0 then RunV2.finished [call] cnt
          else
            match runCreatesV2 o (item.variant_id.getD 0) (splitQuantitiesV2 item.quantity c.toNat) 0 cnt with
            | RunV2.threw calls => RunV2.threw (call :: calls)
            | RunV2.finished calls cnt' => RunV2.finished (call :: calls) cnt'

/-- The variant's item loop: a thrown step aborts the remaining items. -/
def processItemsV2 (o : OracleV2) : List LineItem → Nat → RunV2
  | [], cnt => RunV2.finished [] cnt
  | item :: rest, cnt =>
    match processItemV2 o item cnt with
    | RunV2.threw calls => RunV2.threw calls
    | RunV2.finished calls cnt' =>
      match processItemsV2 o rest cnt' with
      | RunV2.threw calls' => RunV2.threw (calls ++ calls')
      | RunV2.finished calls' cnt'' => RunV2.finished (calls ++ calls') cnt''

/-- The variant webhook handler (`src/unnamed/part_000` lines 222-259): the
same `includes` guard, then the item loop; any thrown step reaches the
outer catch, which answers 500 with no tagging; otherwise
`tagOriginalOrder` runs (it replaces the tags with just the sentinel) and
throws on a non-ok response, also yielding 500. -/
def handleOrderV2 (o : OracleV2) (ord : Order) : Response × List Call :=
  if isSubstring sentinel ord.tags then (⟨200, "Already processed"⟩, [])
  else
    match processItemsV2 o (ord.line_items.getD []) 0 with
    | RunV2.threw calls => (⟨500, "Error"⟩, calls)
    | RunV2.finished calls _ =>
      let tagCall := Call.updateOrderTags ord.id sentinel
      if o.tag then (⟨200, "Split processed"⟩, calls ++ [tagCall])
      else (⟨500, "Error"⟩, calls ++ [tagCall])

/-! ## Generic facts about substring occurrence, trimming and joining -/

theorem countOccs_cons (c : Char) (rest pat : List Char) :
    countOccs (c :: rest) pat =
      (if pat.isPrefixOf (c :: rest) then 1 else 0) + countOccs rest pat := rfl

theorem isSubstring_iff (pat s : List Char) : isSubstring pat s = true ↔ pat <:+: s := by
  induction s with
  | nil => simp [isSubstring, List.isEmpty_iff, List.infix_nil]
  | cons c rest ih =>
    simp [isSubstring, List.infix_cons_iff, ih, List.isPrefixOf_iff_prefix]

theorem isPrefixOf_append_comma {pat X B : List Char} (hc : ',' ∉ pat)
    (h : pat <+: X ++ ',' :: B) : pat <+: X := by
  induction pat generalizing X with
  | nil => exact List.nil_prefix
  | cons p pat ih =>
    cases X with
    | nil =>
      rcases List.cons_prefix_cons.mp h with ⟨rfl, -⟩
      exact absurd (List.mem_cons_self _ _) hc
    | cons x X =>
      rcases List.cons_prefix_cons.mp h with ⟨rfl, h2⟩
      exact List.cons_prefix_cons.mpr
        ⟨rfl, ih (fun hm => hc (List.mem_cons_of_mem _ hm)) h2⟩

theorem countOccs_append_comma (pat X B : List Char) (hc : ',' ∉ pat) :
    countOccs (X ++ ',' :: B) pat = countOccs X pat + countOccs (',' :: B) pat := by
  induction X with
  | nil => simp [countOccs]
  | cons x X ih =>
    have hiff : pat <+: x :: (X ++ ',' :: B) ↔ pat <+: x :: X := by
      constructor
      · intro h
        exact isPrefixOf_append_comma hc (by rw [← List.cons_append] at h; exact h)
      · intro h
        rw [← List.cons_append]
        exact h.trans (List.prefix_append (x :: X) (',' :: B))
    have hpre : pat.isPrefixOf (x :: (X ++ ',' :: B)) = pat.isPrefixOf (x :: X) := by
      rw [Bool.eq_iff_iff]
      simpa [ List.isPrefixOf_iff_prefix] using hiff
    rw [List.cons_append]
    simp only [countOccs_cons]
    rw [hpre, ih, Nat.add_assoc]
    rfl

theorem countOccs_eq_zero (s pat : List Char) (hne : pat ≠ []) :
    countOccs s pat = 0 ↔ ¬ pat <:+: s := by
  induction s with
  | nil => simp [countOccs, List.infix_nil, hne]
  | cons c rest ih =>
    rw [countOccs_cons]
    by_cases hp : pat <+: c :: rest
    · have hb : pat.isPrefixOf (c :: rest) = true := by
        simpa [ List.isPrefixOf_iff_prefix] using hp
      simp [hb, List.infix_cons_iff, hp]
    · have hb : pat.isPrefixOf (c :: rest) = false := by
        cases hB : pat.isPrefixOf (c :: rest) with
        | false => rfl
        | true => exact absurd (by simpa using hB) hp
      simp [hb, List.infix_cons_iff, hp, ih]

theorem jsTrim_infix_self (s : List Char) : jsTrim s <:+: s := by
  have h1 : s.dropWhile isJsWhitespace <:+ s := List.dropWhile_suffix _
  have h2 : (s.dropWhile isJsWhitespace).reverse.dropWhile isJsWhitespace <:+
      (s.dropWhile isJsWhitespace).reverse := List.dropWhile_suffix _
  have h3 : ((s.dropWhile isJsWhitespace).reverse.dropWhile isJsWhitespace).reverse <+:
      s.dropWhile isJsWhitespace := by
    rw [← List.reverse_suffix, List.reverse_reverse]
    exact h2
  exact (List.IsPrefix.isInfix h3).trans (List.IsSuffix.isInfix h1)

theorem countOccs_jsTrim_zero {tags : List Char}
    (h : isSubstring sentinel tags = false) : countOccs (jsTrim tags) sentinel = 0 := by
  have hno : ¬ sentinel <:+: tags := by
    intro hinf
    rw [← isSubstring_iff] at hinf
    simp [h] at hinf
  exact (countOccs_eq_zero _ _ (by decide)).mpr
    (fun hinf => hno (hinf.trans (jsTrim_infix_self tags)))

/-- The ", "-join of a tag list: the wire rendering of a tag set described
by the spec's external-interface section, used to relate membership in the
tag set to the raw tag string the handler receives. -/
def joinTags : List (List Char) → List Char
  | [] => []
  | [t] => t
  | t :: u :: rest => t ++ sepChars ++ joinTags (u :: rest)

theorem mem_infix_joinTags :
    ∀ {l : List (List Char)} {t : List Char}, t ∈ l → t <:+: joinTags l := by
  intro l
  induction l with
  | nil => intro t h; cases h
  | cons x rest ih =>
    intro t h
    rcases List.mem_cons.mp h with rfl | hmem
    · cases rest with
      | nil => exact List.infix_rfl
      | cons y ys => exact ⟨[], sepChars ++ joinTags (y :: ys), by simp [joinTags]⟩
    · cases rest with
      | nil => cases hmem
      | cons y ys => exact (ih hmem).trans ⟨x ++ sepChars, [], by simp [joinTags]⟩

/-! ## C1: the partitioner -/

/-- C1: for every `q > 0` and `c > 0` the computed partition is
`floor(q/c)` entries of `c` followed by one entry `q mod c` exactly when
that remainder is nonzero; it sums to `q`, every entry lies in `(0, c]`,
and its length is `1` when `q ≤ c` and `ceil(q/c)` otherwise; and the
three documented examples hold. -/
theorem splitQuantities_spec :
    (∀ q c : Nat, 0 < q → 0 < c →
      splitQuantities q c =
        List.replicate (q / c) c ++ (if q % c ≠ 0 then [q % c] else []) ∧
      (splitQuantities q c).sum = q ∧
      (∀ x ∈ splitQuantities q c, 0 < x ∧ x ≤ c) ∧
      (splitQuantities q c).length = (if q ≤ c then 1 else (q + c - 1) / c)) ∧
    splitQuantities 2500 500 = [500, 500, 500, 500, 500] ∧
    splitQuantities 2300 500 = [500, 500, 500, 500, 300] ∧
    splitQuantities 300 500 = [300] := by
  refine ⟨fun q c hq hc => ⟨?_, ?_, ?_, ?_⟩, by decide, by decide, by decide⟩
  · simp [splitQuantities, Nat.pos_iff_ne_zero]
  · by_cases hr : q % c = 0
    · have hdvd : c ∣ q := Nat.dvd_of_mod_eq_zero hr
      simp [splitQuantities, hr, List.sum_const_nat]
      exact Nat.div_mul_cancel hdvd
    · have hpos : 0 < q % c := Nat.pos_of_ne_zero hr
      have hdm := Nat.div_add_mod' q c
      simp [splitQuantities, hpos, List.sum_const_nat, List.sum_append]
      omega
  · intro x hx
    simp only [splitQuantities] at hx
    rcases List.mem_append.mp hx with hx1 | hx2
    · rcases List.eq_of_mem_replicate hx1 with rfl
      exact ⟨hc, Nat.le_refl _⟩
    · by_cases hr : 0 < q % c
      · rw [if_pos hr] at hx2
        rcases List.mem_singleton.mp hx2 with rfl
        exact ⟨hr, Nat.le_of_lt (Nat.mod_lt q hc)⟩
      · rw [if_neg hr] at hx2
        cases hx2
  · have hdm := Nat.div_add_mod q c
    have hmlt : q % c < c := Nat.mod_lt q hc
    simp only [splitQuantities, List.length_append, List.length_replicate]
    by_cases hr : q % c = 0
    · simp only [hr, gt_iff_lt, Nat.lt_irrefl, if_false, List.length_nil, Nat.add_zero]
      by_cases hqc : q ≤ c
      · rw [if_pos hqc]
        have hdvd : c ∣ q := Nat.dvd_of_mod_eq_zero hr
        have hcq : c ≤ q := Nat.le_of_dvd hq hdvd
        have hqec : q = c := Nat.le_antisymm hqc hcq
        rw [hqec, Nat.div_self hc]
      · rw [if_neg hqc]
        have h1 : q + c - 1 = c * (q / c) + (c - 1) := by omega
        rw [h1, Nat.mul_add_div hc,
          Nat.div_eq_of_lt (show c - 1 < c by omega), Nat.add_zero]
    · have hpos : 0 < q % c := Nat.pos_of_ne_zero hr
      rw [if_pos hpos]
      by_cases hqc : q ≤ c
      · have hqltc : q < c := by
          rcases Nat.lt_or_eq_of_le hqc with h | h
          · exact h
          · rw [h] at hr
            exact absurd (Nat.mod_self c) hr
        rw [if_pos hqc, Nat.div_eq_of_lt hqltc]
        rfl
      · rw [if_neg hqc]
        have h2 : c * (q / c + 1) = c * (q / c) + c := by ring
        have h1 : q + c - 1 = c * (q / c + 1) + (q % c - 1) := by omega
        rw [h1, Nat.mul_add_div hc,
          Nat.div_eq_of_lt (show q % c - 1 < c by omega), Nat.add_zero]
        simp

/-- Witness for C1 at `q = 2300`, `c = 500`. -/
theorem splitQuantities_spec_witness :
    0 < 2300 ∧ 0 < 500 ∧
    (splitQuantities 2300 500 =
        List.replicate (2300 / 500) 500 ++ (if 2300 % 500 ≠ 0 then [2300 % 500] else []) ∧
      (splitQuantities 2300 500).sum = 2300 ∧
      (∀ x ∈ splitQuantities 2300 500, 0 < x ∧ x ≤ 500) ∧
      (splitQuantities 2300 500).length = (if 2300 ≤ 500 then 1 else (2300 + 500 - 1) / 500)) :=
  ⟨by decide, by decide, splitQuantities_spec.1 2300 500 (by decide) (by decide)⟩

/-! ## Concrete oracles used by witnesses and counterexamples -/

/-- Every product has no metafields; creations and tagging succeed. -/
def oracleA : Oracle :=
  ⟨fun _ => MetaOutcome.parsed none, fun _ => CreateOutcome.ok, TagOutcome.ok⟩

/-- Metafields succeed, creations succeed, the final tag update returns a
non-success response. -/
def oracleTagFail : Oracle :=
  ⟨fun _ => MetaOutcome.parsed none, fun _ => CreateOutcome.ok, TagOutcome.notOk⟩

/-- Every product has capacity 500; every creation attempt throws. -/
def oracleCreateFail : Oracle :=
  ⟨fun _ => MetaOutcome.parsed (some [⟨"custom", "truckload_capacity", "500"⟩]),
   fun _ => CreateOutcome.thrown, TagOutcome.ok⟩

/-! ## C2: already-processed orders short-circuit -/

/-- C2: an order whose tag set (rendered as the comma-joined string the
handler receives) contains the sentinel tag produces zero outbound calls
and a success response. -/
theorem already_processed_short_circuits (o : Oracle) (ord : Order)
    (tagList : List (List Char)) (hjoin : ord.tags = joinTags tagList)
    (hmem : sentinel ∈ tagList) :
    handleOrder o ord = (⟨200, "Already processed"⟩, []) := by
  have hsub : isSubstring sentinel ord.tags = true := by
    rw [isSubstring_iff, hjoin]
    exact mem_infix_joinTags hmem
  simp [handleOrder, hsub]

/-- Witness for C2: a tagged order with one line item, no outbound calls. -/
theorem already_processed_short_circuits_witness :
    handleOrder oracleA
      ⟨1, joinTags ["VIP".toList, sentinel], some [⟨some 7, some 8, 100⟩]⟩ =
      (⟨200, "Already processed"⟩, []) :=
  already_processed_short_circuits oracleA _ ["VIP".toList, sentinel] rfl (by decide)

/-! ## C10: the guard is substring containment on the raw tag string -/

/-- C10: whenever the raw tag string contains the characters of the
sentinel anywhere — membership in the parsed tag set is not required —
the handler short-circuits with a success response and zero outbound
calls. -/
theorem substring_guard_short_circuits (o : Oracle) (ord : Order)
    (h : isSubstring sentinel ord.tags = true) :
    handleOrder o ord = (⟨200, "Already processed"⟩, []) := by
  simp [handleOrder, h]

/-- Witness for C10: the sentinel occurs strictly inside the single tag
`Not-Split-Processed`, yet the order is skipped with no outbound calls. -/
theorem substring_guard_short_circuits_witness :
    isSubstring sentinel "Not-Split-Processed".toList = true ∧
    handleOrder oracleA ⟨2, "Not-Split-Processed".toList, some [⟨some 7, some 8, 100⟩]⟩ =
      (⟨200, "Already processed"⟩, []) :=
  ⟨by decide, substring_guard_short_circuits oracleA _ (by decide)⟩

/-! ## C9: missing or empty line items -/

/-- C9 counterexample: on an order with no line-item array the handler
returns status 200 ("No line items"), not a server-error response, with
zero outbound calls. -/
theorem no_line_items_counterexample :
    handleOrder oracleA ⟨3, [], none⟩ = (⟨200, "No line items"⟩, []) ∧
    (handleOrder oracleA ⟨3, [], none⟩).1.status ≠ 500 := by
  constructor
  · rfl
  · decide

/-- C9 amended: an inbound payload whose line items are missing or empty
aborts before any outbound call and returns a success response
(status 200, "No line items"). -/
theorem no_line_items_aborts (o : Oracle) (ord : Order)
    (hguard : isSubstring sentinel ord.tags = false)
    (hempty : ord.line_items.getD [] = []) :
    handleOrder o ord = (⟨200, "No line items"⟩, []) := by
  simp [handleOrder, hguard, hempty]

/-- Witness for the amended C9 on an order with an empty line-item list. -/
theorem no_line_items_aborts_witness :
    handleOrder oracleA ⟨3, "rush".toList, some []⟩ = (⟨200, "No line items"⟩, []) :=
  no_line_items_aborts oracleA _ (by decide) (by decide)

/-! ## C3: a failed final tag update still yields success -/

/-- C3: for an order that reaches the marking step (guard passed, line
items present), a failed tag update — thrown error or non-success
response — still produces the success response "Split processed". -/
theorem tagging_failure_still_success (o : Oracle) (ord : Order)
    (hguard : isSubstring sentinel ord.tags = false)
    (hitems : ord.line_items.getD [] ≠ [])
    (hfail : o.tag = TagOutcome.thrown ∨ o.tag = TagOutcome.notOk) :
    (handleOrder o ord).1 = ⟨200, "Split processed"⟩ := by
  have hlen : (ord.line_items.getD []).length ≠ 0 := by
    simpa [List.length_eq_zero] using hitems
  rcases hfail with h | h <;> simp [handleOrder, hguard, hlen, h]

/-- Witness for C3: a non-success tag response, yet a 200 to the caller. -/
theorem tagging_failure_still_success_witness :
    (handleOrder oracleTagFail ⟨4, [], some [⟨some 7, some 8, 3⟩]⟩).1 =
      ⟨200, "Split processed"⟩ :=
  tagging_failure_still_success oracleTagFail _ (by decide) (by decide) (Or.inr rfl)

/-! ## The creation loop and per-item processing -/

theorem runCreates_eq (o : Oracle) (v : Nat) : ∀ (qs : List Nat) (i cnt : Nat),
    runCreates o v qs i cnt =
      ((List.enumFrom i qs).map (fun p => Call.createOrder v p.2 (p.1 + 1)),
        cnt + qs.length) := by
  intro qs
  induction qs with
  | nil => intro i cnt; simp [runCreates]
  | cons q rest ih =>
    intro i cnt
    have hlen : cnt + 1 + rest.length = cnt + (rest.length + 1) := by omega
    cases hco : o.create cnt <;> simp [runCreates, hco, ih, hlen]

theorem filter_create_map (v : Nat) (L : List (Nat × Nat)) :
    (L.map (fun p => Call.createOrder v p.2 (p.1 + 1))).filter isCreateCall =
      L.map (fun p => Call.createOrder v p.2 (p.1 + 1)) := by
  induction L with
  | nil => rfl
  | cons a L ih => simp [isCreateCall, ih]

/-! ## C8: the no-split case makes no creation call -/

/-- C8: a line item with a known positive capacity `c` and quantity
`q ≤ c` is skipped entirely — its only outbound call is the capacity
lookup, and in particular zero child-order creation calls are made. -/
theorem no_split_skips_item (o : Oracle) (item : LineItem) (cnt pid : Nat)
    (mfs : List Metafield) (m : Metafield) (c : Int)
    (hp : item.product_id = some pid) (hp0 : pid ≠ 0)
    (hv : truthyId item.variant_id = true)
    (hm : o.meta pid = MetaOutcome.parsed (some mfs))
    (hfind : findTruckloadMeta mfs = some m)
    (hparse : jsParseInt m.value.toList = some c)
    (hcpos : 0 < c) (hle : (item.quantity : Int) ≤ c) :
    processItem o item cnt = ([Call.getMetafields pid], cnt) ∧
    ((processItem o item cnt).1.filter isCreateCall) = [] := by
  have htp : truthyId (some pid) = true := by simp [truthyId, hp0]
  have hparse2 : jsParseInt m.value.data = some c := hparse
  have h1 : ¬ c ≤ 0 := by omega
  have hmain : processItem o item cnt = ([Call.getMetafields pid], cnt) := by
    simp [processItem, htp, hv, hp, hm, hfind, hparse2, h1, hle]
  exact ⟨hmain, by rw [hmain]; rfl⟩

/-- An oracle under which every product has the capacity metafield 500 and
all calls succeed. -/
def oracle500 : Oracle :=
  ⟨fun _ => MetaOutcome.parsed (some [⟨"custom", "truckload_capacity", "500"⟩]),
   fun _ => CreateOutcome.ok, TagOutcome.ok⟩

/-- Witness for C8: quantity 300 against capacity 500 — only the lookup. -/
theorem no_split_skips_item_witness :
    processItem oracle500 ⟨some 7, some 8, 300⟩ 0 = ([Call.getMetafields 7], 0) ∧
    ((processItem oracle500 ⟨some 7, some 8, 300⟩ 0).1.filter isCreateCall) = [] :=
  no_split_skips_item oracle500 ⟨some 7, some 8, 300⟩ 0 7
    [⟨"custom", "truckload_capacity", "500"⟩] ⟨"custom", "truckload_capacity", "500"⟩ 500
    rfl (by decide) (by decide) rfl (by decide) (by decide) (by decide) (by decide)

/-! ## C4: every partition entry gets its creation attempt -/

/-- C4: for a line item that splits (positive capacity `c`, quantity above
`c`), and for EVERY oracle — hence every pattern of creation failures,
since failed calls change nothing in the control flow — the handler
attempts one creation per partition entry, in order, with 1-based
truckload indices; the number of creation attempts equals the partition
length. -/
theorem creation_attempts_cover_partition (o : Oracle) (item : LineItem)
    (cnt pid vid : Nat) (mfs : List Metafield) (m : Metafield) (c : Int)
    (hp : item.product_id = some pid) (hp0 : pid ≠ 0)
    (hv : item.variant_id = some vid) (hv0 : vid ≠ 0)
    (hm : o.meta pid = MetaOutcome.parsed (some mfs))
    (hfind : findTruckloadMeta mfs = some m)
    (hparse : jsParseInt m.value.toList = some c)
    (hcpos : 0 < c) (hgt : c < (item.quantity : Int)) :
    (processItem o item cnt).1 =
      Call.getMetafields pid ::
        (List.enumFrom 0 (splitQuantities item.quantity c.toNat)).map
          (fun p => Call.createOrder vid p.2 (p.1 + 1)) ∧
    ((processItem o item cnt).1.filter isCreateCall).length =
      (splitQuantities item.quantity c.toNat).length := by
  have htp : truthyId (some pid) = true := by simp [truthyId, hp0]
  have htv : truthyId (some vid) = true := by simp [truthyId, hv0]
  have hparse2 : jsParseInt m.value.data = some c := hparse
  have h1 : ¬ c ≤ 0 := by omega
  have h2 : ¬ (item.quantity : Int) ≤ c := by omega
  have hmain : (processItem o item cnt).1 =
      Call.getMetafields pid ::
        (List.enumFrom 0 (splitQuantities item.quantity c.toNat)).map
          (fun p => Call.createOrder vid p.2 (p.1 + 1)) := by
    simp [processItem, htp, htv, hp, hv, hm, hfind, hparse2, h1, h2, runCreates_eq]
  refine ⟨hmain, ?_⟩
  rw [hmain]
  simp [isCreateCall, filter_create_map, List.filter_cons, List.enumFrom_length]

/-- Witness for C4: quantity 1200 at capacity 500, every creation attempt
throws, yet all three partition entries are attempted. -/
theorem creation_attempts_cover_partition_witness :
    (processItem oracleCreateFail ⟨some 7, some 8, 1200⟩ 0).1 =
      Call.getMetafields 7 ::
        (List.enumFrom 0 (splitQuantities 1200 500)).map
          (fun p => Call.createOrder 8 p.2 (p.1 + 1)) ∧
    ((processItem oracleCreateFail ⟨some 7, some 8, 1200⟩ 0).1.filter isCreateCall).length =
      (splitQuantities 1200 500).length :=
  creation_attempts_cover_partition oracleCreateFail ⟨some 7, some 8, 1200⟩ 0 7 8
    [⟨"custom", "truckload_capacity", "500"⟩] ⟨"custom", "truckload_capacity", "500"⟩ 500
    rfl (by decide) rfl (by decide) rfl (by decide) (by decide) (by decide) (by decide)

/-! ## C7: the capacity resolver -/

theorem find?_first {α : Type} (p : α → Bool) :
    ∀ {l : List α} {m : α}, l.find? p = some m →
      p m = true ∧ ∃ l1 l2, l = l1 ++ m :: l2 ∧ ∀ x ∈ l1, p x = false := by
  intro l
  induction l with
  | nil => intro m h; cases h
  | cons a l ih =>
    intro m h
    by_cases hpa : p a
    · rw [List.find?_cons_of_pos _ hpa] at h
      cases h
      exact ⟨hpa, [], l, rfl, by intro x hx; cases hx⟩
    · rw [List.find?_cons_of_neg _ hpa] at h
      obtain ⟨hm, l1, l2, rfl, hall⟩ := ih h
      refine ⟨hm, a :: l1, l2, rfl, ?_⟩
      intro x hx
      rcases List.mem_cons.mp hx with rfl | hx2
      · cases hb : p x with
        | false => rfl
        | true => exact absurd hb hpa
      · exact hall x hx2

/-- C7: the capacity resolver takes the first record in collection order
whose key is `truckload_capacity` and whose namespace is `custom` or
`logistics` (first conjunct: soundness of `find?`; second: completeness —
a matching record guarantees a result); and when the chosen record's
value fails to parse as a positive integer, the line item is skipped with
only the lookup call, not treated as an error (third conjunct). -/
theorem capacity_first_match_and_unparsable_skip :
    (∀ (mfs : List Metafield) (m : Metafield),
      findTruckloadMeta mfs = some m →
        isCapacityMf m = true ∧
        ∃ l1 l2, mfs = l1 ++ m :: l2 ∧ ∀ x ∈ l1, isCapacityMf x = false) ∧
    (∀ (mfs : List Metafield) (m : Metafield),
      m ∈ mfs → isCapacityMf m = true → (findTruckloadMeta mfs).isSome = true) ∧
    (∀ (o : Oracle) (item : LineItem) (cnt pid : Nat)
        (mfs : List Metafield) (m : Metafield),
      item.product_id = some pid → pid ≠ 0 → truthyId item.variant_id = true →
      o.meta pid = MetaOutcome.parsed (some mfs) →
      findTruckloadMeta mfs = some m →
      (jsParseInt m.value.toList = none ∨
        ∃ v, jsParseInt m.value.toList = some v ∧ v ≤ 0) →
      processItem o item cnt = ([Call.getMetafields pid], cnt)) := by
  refine ⟨fun mfs m h => find?_first isCapacityMf h, ?_, ?_⟩
  · intro mfs m hmem hp
    rw [findTruckloadMeta, List.find?_isSome]
    exact ⟨m, hmem, hp⟩
  · intro o item cnt pid mfs m hp hp0 hv hm hfind hbad
    have htp : truthyId (some pid) = true := by simp [truthyId, hp0]
    rcases hbad with hnone | ⟨v, hsome, hvle⟩
    · have hparse2 : jsParseInt m.value.data = none := hnone
      simp [processItem, htp, hv, hp, hm, hfind, hparse2]
    · have hparse2 : jsParseInt m.value.data = some v := hsome
      simp [processItem, htp, hv, hp, hm, hfind, hparse2, hvle]

/-- An oracle where the capacity metafield value is not numeric. -/
def oracleBadCap : Oracle :=
  ⟨fun _ => MetaOutcome.parsed (some [⟨"custom", "truckload_capacity", "lots"⟩]),
   fun _ => CreateOutcome.ok, TagOutcome.ok⟩

/-- Witness for C7: among two matching records the first (namespace
`logistics`, value 250) wins over the later `custom` one; and a
non-numeric capacity value makes the handler skip the item with only the
lookup call. -/
theorem capacity_first_match_and_unparsable_skip_witness :
    (isCapacityMf ⟨"logistics", "truckload_capacity", "250"⟩ = true ∧
      ∃ l1 l2,
        [Metafield.mk "logistics" "truckload_capacity" "250",
         Metafield.mk "custom" "truckload_capacity" "500"] =
          l1 ++ Metafield.mk "logistics" "truckload_capacity" "250" :: l2 ∧
        ∀ x ∈ l1, isCapacityMf x = false) ∧
    processItem oracleBadCap ⟨some 7, some 8, 100⟩ 0 = ([Call.getMetafields 7], 0) :=
  ⟨capacity_first_match_and_unparsable_skip.1
      [⟨"logistics", "truckload_capacity", "250"⟩, ⟨"custom", "truckload_capacity", "500"⟩]
      ⟨"logistics", "truckload_capacity", "250"⟩ (by decide),
   capacity_first_match_and_unparsable_skip.2.2 oracleBadCap ⟨some 7, some 8, 100⟩ 0 7
      [⟨"custom", "truckload_capacity", "lots"⟩] ⟨"custom", "truckload_capacity", "lots"⟩
      rfl (by decide) (by decide) rfl (by decide) (Or.inl (by decide))⟩

/-! ## C5: capacity-lookup transport failure -/

/-- The metafields fetch for product 7 rejects; product 9 has no
metafields; creations and tagging succeed. -/
def oracleLookupFail : Oracle :=
  ⟨fun pid => if pid = 7 then MetaOutcome.fetchThrown else MetaOutcome.parsed none,
   fun _ => CreateOutcome.ok, TagOutcome.ok⟩

/-- An untagged order with two valid line items (products 7 and 9). -/
def orderTwoItems : Order := ⟨5, [], some [⟨some 7, some 8, 100⟩, ⟨some 9, some 10, 100⟩]⟩

/-- C5 counterexample: in the primary handler a transport failure of the
capacity lookup for the first item does NOT abort the request — the
second item is still processed, the tag update is still attempted, and
the response is 200, not a server error. -/
theorem lookup_failure_counterexample :
    handleOrder oracleLookupFail orderTwoItems =
      (⟨200, "Split processed"⟩,
       [Call.getMetafields 7, Call.getMetafields 9, Call.updateOrderTags 5 sentinel]) ∧
    (handleOrder oracleLookupFail orderTwoItems).1.status ≠ 500 ∧
    Call.getMetafields 9 ∈ (handleOrder oracleLookupFail orderTwoItems).2 ∧
    (handleOrder oracleLookupFail orderTwoItems).2.filter isUpdateCall ≠ [] := by
  refine ⟨by decide, by decide, by decide, by decide⟩

/-- A variant-handler oracle whose metafields fetches all fail. -/
def oracleV2Fail : OracleV2 := ⟨fun _ => MetaOutcomeV2.failure, fun _ => true, true⟩

/-- C5 amended: a transport/service failure of the capacity lookup is
handled differently by the two handler variants.  The primary handler
(`src/server.js`) merely skips that line item: the remaining items are
still processed, the tag update is still attempted, and the caller gets a
success response.  The `getProductMetafields`-based variant
(`src/unnamed/part_000` lines 222-259, `src/unnamed/part_001`) aborts the
whole request at that point — no further item processing, no tagging —
and returns a server-error response. -/
theorem lookup_failure_policy :
    (∀ (o : Oracle) (ord : Order) (item : LineItem) (rest : List LineItem) (pid : Nat),
      isSubstring sentinel ord.tags = false →
      ord.line_items = some (item :: rest) →
      item.product_id = some pid → pid ≠ 0 → truthyId item.variant_id = true →
      o.meta pid = MetaOutcome.fetchThrown →
      handleOrder o ord =
        (⟨200, "Split processed"⟩,
         Call.getMetafields pid :: (processItems o rest 0).1 ++
           [Call.updateOrderTags ord.id (newTags ord.tags)])) ∧
    (∀ (o : OracleV2) (ord : Order) (item : LineItem) (rest : List LineItem) (pid : Nat),
      isSubstring sentinel ord.tags = false →
      ord.line_items = some (item :: rest) →
      item.product_id = some pid → pid ≠ 0 → truthyId item.variant_id = true →
      o.meta pid = MetaOutcomeV2.failure →
      handleOrderV2 o ord = (⟨500, "Error"⟩, [Call.getMetafields pid])) := by
  constructor
  · intro o ord item rest pid hguard hli hp hp0 hv hm
    have htp : truthyId (some pid) = true := by simp [truthyId, hp0]
    have hpi : processItem o item 0 = ([Call.getMetafields pid], 0) := by
      simp [processItem, htp, hv, hp, hm]
    cases ht : o.tag <;>
      simp [handleOrder, hguard, hli, processItems, hpi, ht]
  · intro o ord item rest pid hguard hli hp hp0 hv hm
    have htp : truthyId (some pid) = true := by simp [truthyId, hp0]
    have hpi : processItemV2 o item 0 = RunV2.threw [Call.getMetafields pid] := by
      simp [processItemV2, htp, hv, hp, hm]
    simp [handleOrderV2, hguard, hli, processItemsV2, hpi]

/-- Witness for the amended C5 on single-item orders for both handlers. -/
theorem lookup_failure_policy_witness :
    handleOrder oracleLookupFail ⟨5, [], some [⟨some 7, some 8, 100⟩]⟩ =
      (⟨200, "Split processed"⟩,
       Call.getMetafields 7 :: (processItems oracleLookupFail [] 0).1 ++
         [Call.updateOrderTags 5 (newTags [])]) ∧
    handleOrderV2 oracleV2Fail ⟨6, [], some [⟨some 7, some 8, 100⟩]⟩ =
      (⟨500, "Error"⟩, [Call.getMetafields 7]) :=
  ⟨lookup_failure_policy.1 oracleLookupFail _ ⟨some 7, some 8, 100⟩ [] 7
      (by decide) rfl rfl (by decide) (by decide) rfl,
   lookup_failure_policy.2 oracleV2Fail _ ⟨some 7, some 8, 100⟩ [] 7
      (by decide) rfl rfl (by decide) (by decide) rfl⟩

/-! ## C6: the single sentinel append is the only mutation -/

theorem filter_update_map (v : Nat) (L : List (Nat × Nat)) :
    (L.map (fun p => Call.createOrder v p.2 (p.1 + 1))).filter isUpdateCall = [] := by
  induction L with
  | nil => rfl
  | cons a L ih => simp [isUpdateCall, ih]

theorem processItem_filter_update (o : Oracle) (item : LineItem) (cnt : Nat) :
    ((processItem o item cnt).1).filter isUpdateCall = [] := by
  simp only [processItem]
  split
  · rfl
  · split
    · rfl
    · rfl
    · split
      · rfl
      · split
        · rfl
        · split
          · rfl
          · simp [isUpdateCall, runCreates_eq, filter_update_map]

theorem processItems_filter_update (o : Oracle) :
    ∀ (items : List LineItem) (cnt : Nat),
      ((processItems o items cnt).1).filter isUpdateCall = [] := by
  intro items
  induction items with
  | nil => intro cnt; rfl
  | cons item rest ih =>
    intro cnt
    simp [processItems, List.filter_append, processItem_filter_update, ih]

/-- C6: for an order that passes the guard (its raw tag string does not
contain the sentinel) and whose final tag update succeeds, the tag string
sent in the update contains exactly one occurrence of the sentinel,
appended as `", Split-Processed"` after the (trimmed) pre-existing tag
string; and the only mutation of an existing order among all outbound
calls is that single tag update of the original order. -/
theorem mark_appends_single_sentinel (o : Oracle) (ord : Order)
    (hguard : isSubstring sentinel ord.tags = false)
    (hitems : ord.line_items.getD [] ≠ [])
    (hok : o.tag = TagOutcome.ok) :
    countOccs (newTags ord.tags) sentinel = 1 ∧
    newTags ord.tags =
      (if (jsTrim ord.tags).isEmpty then sentinel
       else jsTrim ord.tags ++ sepChars ++ sentinel) ∧
    (handleOrder o ord).2.filter isUpdateCall =
      [Call.updateOrderTags ord.id (newTags ord.tags)] := by
  have h0 : countOccs (jsTrim ord.tags) sentinel = 0 := countOccs_jsTrim_zero hguard
  have hcnt : countOccs (newTags ord.tags) sentinel = 1 := by
    by_cases he : (jsTrim ord.tags).isEmpty
    · have hform : newTags ord.tags = sentinel := by simp [newTags, he]
      rw [hform]
      decide
    · have hform : newTags ord.tags = jsTrim ord.tags ++ ',' :: (' ' :: sentinel) := by
        simp [newTags, he, sepChars]
      rw [hform, countOccs_append_comma _ _ _ (by decide), h0]
      decide
  have hlen : (ord.line_items.getD []).length ≠ 0 := by
    simpa [List.length_eq_zero] using hitems
  refine ⟨hcnt, rfl, ?_⟩
  simp [handleOrder, hguard, hlen, hok, List.filter_append,
    processItems_filter_update, isUpdateCall]

/-- Witness for C6 on an order tagged `bulk` with one small line item. -/
theorem mark_appends_single_sentinel_witness :
    countOccs (newTags "bulk".toList) sentinel = 1 ∧
    newTags "bulk".toList =
      (if (jsTrim "bulk".toList).isEmpty then sentinel
       else jsTrim "bulk".toList ++ sepChars ++ sentinel) ∧
    (handleOrder oracleA ⟨11, "bulk".toList, some [⟨some 7, some 8, 3⟩]⟩).2.filter isUpdateCall =
      [Call.updateOrderTags 11 (newTags "bulk".toList)] :=
  mark_appends_single_sentinel oracleA ⟨11, "bulk".toList, some [⟨some 7, some 8, 3⟩]⟩
    (by decide) (by decide) rfl
